import Mathlib

/-!
Verification of the usftp SFTP client against its design specification.

The Go sources are shallowly embedded: byte buffers are `List Nat` (each
element one byte), Go strings appearing as opaque handles/paths are either
`List Nat` (byte strings) or `List Char` (where rune semantics matter) or
Lean `String` (session-level names), machine integers are `Nat` with
explicit bounds where overflow matters, fallible/panicking code returns
`Option`, and the blocking channel protocol of a session operation is
modelled as a function from the finite script of server messages delivered
on the operation's channel to the list of requests written plus an outcome.
-/

namespace Usftp

/-- Model of encoding.go `Uint32`: big-endian read of 4 bytes, returning the
value and the remainder.  Go panics on a short slice; that is `none` here. -/
def Uint32 : List Nat → Option (Nat × List Nat)
  | b0 :: b1 :: b2 :: b3 :: r => some (((b0 * 256 + b1) * 256 + b2) * 256 + b3, r)
  | _ => none

/-- Model of encoding.go `Uint64`: big-endian read of 8 bytes. -/
def Uint64 : List Nat → Option (Nat × List Nat)
  | b0 :: b1 :: b2 :: b3 :: b4 :: b5 :: b6 :: b7 :: r =>
    some (((((((b0 * 256 + b1) * 256 + b2) * 256 + b3) * 256 + b4) * 256 + b5)
      * 256 + b6) * 256 + b7, r)
  | _ => none

/-- Model of encoding.go `String`: u32 length prefix, then that many bytes.
Go panics when the buffer is shorter than the declared length (`none`). -/
def readString (b : List Nat) : Option (List Nat × List Nat) :=
  match Uint32 b with
  | none => none
  | some (l, r) => if l ≤ r.length then some (r.take l, r.drop l) else none

/-- Model of encoding.go `WriteUint32`: the four big-endian bytes of v. -/
def writeUint32 (v : Nat) : List Nat :=
  [v / 16777216 % 256, v / 65536 % 256, v / 256 % 256, v % 256]

/-- Model of encoding.go `WriteUint64`: the eight big-endian bytes of v. -/
def writeUint64 (v : Nat) : List Nat :=
  [v / 72057594037927936 % 256, v / 281474976710656 % 256,
   v / 1099511627776 % 256, v / 4294967296 % 256,
   v / 16777216 % 256, v / 65536 % 256, v / 256 % 256, v % 256]

/-- Model of encoding.go `WriteString`: u32 byte-length prefix then the bytes. -/
def writeString (s : List Nat) : List Nat :=
  writeUint32 s.length ++ s

/-! Message catalog (src/unnamed/part_002).  Go strings are byte lists,
except `OpenDirReq.Path`, kept as a `List Char` because its marshaller
converts the path to a rune slice. -/

def SSH_FX_OK : Nat := 0
def SSH_FX_EOF : Nat := 1
def SSH_FXF_READ : Nat := 1

def SSH_FILEXFER_ATTR_SIZE : Nat := 1
def SSH_FILEXFER_ATTR_UIDGID : Nat := 2
def SSH_FILEXFER_ATTR_PERMISSIONS : Nat := 4
def SSH_FILEXFER_ATTR_ACMODTIME : Nat := 8
def SSH_FILEXFER_ATTR_EXTENDED : Nat := 2147483648

structure Attrs where
  Size : Nat := 0
  Uid : Nat := 0
  Gid : Nat := 0
  Permissions : Nat := 0
  Atime : Nat := 0
  Mtime : Nat := 0
  ExtendedCount : Nat := 0
deriving DecidableEq, Repr

structure NameRespFile where
  Filename : List Nat
  Longname : List Nat
  Attrs : Attrs
deriving DecidableEq, Repr

structure NameResp where
  Id : Nat
  Count : Nat
  Names : List NameRespFile
deriving DecidableEq, Repr

structure InitReq where
  Version : Nat
  Extensions : List (List Nat × List Nat) := []
deriving DecidableEq, Repr

structure OpenDirReq where
  Id : Nat
  Path : List Char
deriving DecidableEq, Repr

structure ReadDirReq where
  Id : Nat
  Handle : List Nat
deriving DecidableEq, Repr

structure CloseReq where
  Id : Nat
  Handle : List Nat
deriving DecidableEq, Repr

structure OpenReq where
  Id : Nat
  Filename : List Nat
  Pflags : Nat
deriving DecidableEq, Repr

structure ReadReq where
  Id : Nat
  Handle : List Nat
  Offset : Nat
  Len : Nat
deriving DecidableEq, Repr

/-- UTF-8 encoding of one character, the bytes Go stores for a rune inside a
string (`buf.WriteString` writes the string's UTF-8 bytes). -/
def utf8Enc (c : Char) : List Nat :=
  let n := c.toNat
  if n < 128 then [n]
  else if n < 2048 then [192 + n / 64, 128 + n % 64]
  else if n < 65536 then [224 + n / 4096, 128 + n / 64 % 64, 128 + n % 64]
  else [240 + n / 262144, 128 + n / 4096 % 64, 128 + n / 64 % 64, 128 + n % 64]

/-- UTF-8 bytes of a rune sequence. -/
def utf8Bytes (s : List Char) : List Nat :=
  s.flatMap utf8Enc

/-- Model of `InitReq.MarshalBinary`: the big-endian version word; the
Extensions field is never written. -/
def InitReq.MarshalBinary (i : InitReq) : List Nat :=
  writeUint32 i.Version

/-- Model of `InitReq.UnmarshalBinary`: reads the version word into the
receiver; a short buffer panics in Go (`none` here). -/
def InitReq.UnmarshalBinary (i : InitReq) (b : List Nat) : Option InitReq :=
  match Uint32 b with
  | none => none
  | some (v, _) => some { i with Version := v }

/-- Model of `OpenDirReq.MarshalBinary`: request id, then a u32 holding
`len([]rune(Path))` (the RUNE count), then the path's UTF-8 bytes. -/
def OpenDirReq.MarshalBinary (r : OpenDirReq) : List Nat :=
  writeUint32 r.Id ++ writeUint32 r.Path.length ++ utf8Bytes r.Path

/-- Model of `OpenDirReq.UnmarshalBinary`: a stub returning nil, so the
receiver is left unchanged whatever the input. -/
def OpenDirReq.UnmarshalBinary (r : OpenDirReq) (b : List Nat) : Option OpenDirReq :=
  some r

/-- Model of `ReadDirReq.MarshalBinary`: id, byte-length prefix, handle bytes. -/
def ReadDirReq.MarshalBinary (r : ReadDirReq) : List Nat :=
  writeUint32 r.Id ++ writeUint32 r.Handle.length ++ r.Handle

/-- Model of `ReadDirReq.UnmarshalBinary`: a stub leaving the receiver unchanged. -/
def ReadDirReq.UnmarshalBinary (r : ReadDirReq) (b : List Nat) : Option ReadDirReq :=
  some r

/-- Model of `CloseReq.MarshalBinary`: id then length-prefixed handle. -/
def CloseReq.MarshalBinary (r : CloseReq) : List Nat :=
  writeUint32 r.Id ++ writeString r.Handle

/-- Model of `CloseReq.UnmarshalBinary`: a stub leaving the receiver unchanged. -/
def CloseReq.UnmarshalBinary (r : CloseReq) (b : List Nat) : Option CloseReq :=
  some r

/-- Model of `OpenReq.MarshalBinary`: errors unless the read pflag is set, then
id, length-prefixed filename, pflags, and a zero attribute flag word. -/
def OpenReq.MarshalBinary (r : OpenReq) : Option (List Nat) :=
  if r.Pflags &&& SSH_FXF_READ = 0 then none
  else some (writeUint32 r.Id ++ writeString r.Filename ++ writeUint32 r.Pflags
    ++ writeUint32 0)

/-- Model of `OpenReq.UnmarshalBinary`: a stub leaving the receiver unchanged. -/
def OpenReq.UnmarshalBinary (r : OpenReq) (b : List Nat) : Option OpenReq :=
  some r

/-- Model of `ReadReq.MarshalBinary`: id, length-prefixed handle, u64 offset,
u32 length. -/
def ReadReq.MarshalBinary (r : ReadReq) : List Nat :=
  writeUint32 r.Id ++ writeString r.Handle ++ writeUint64 r.Offset ++ writeUint32 r.Len

/-- Model of `ReadReq.UnmarshalBinary`: a stub leaving the receiver unchanged. -/
def ReadReq.UnmarshalBinary (r : ReadReq) (b : List Nat) : Option ReadReq :=
  some r

/-! NameResp.UnmarshalBinary (src/unnamed/part_002 lines 386-422), decomposed
into the per-entry attribute steps the Go loop performs in order. -/

/-- Attribute block reader of `NameResp.UnmarshalBinary`: after filename,
longname and the flag word, the loop body reads, in this order and only when
the corresponding flag bit is set: SIZE (u64), UIDGID (u32 uid, u32 gid),
PERMISSIONS (u32), ACMODTIME (u32 atime, u32 mtime), EXTENDED (u32 count,
where a count greater than zero panics in Go — modelled as `none`). -/
def decodeAttrs (flags : Nat) (b : List Nat) : Option (Attrs × List Nat) :=
  match (if flags &&& SSH_FILEXFER_ATTR_SIZE ≠ 0 then Uint64 b else some (0, b)) with
  | none => none
  | some (sz, b1) =>
  match (if flags &&& SSH_FILEXFER_ATTR_UIDGID ≠ 0 then
          match Uint32 b1 with
          | none => none
          | some (uid, b') =>
            match Uint32 b' with
            | none => none
            | some (gid, b'') => some ((uid, gid), b'')
        else some ((0, 0), b1)) with
  | none => none
  | some ((uid, gid), b2) =>
  match (if flags &&& SSH_FILEXFER_ATTR_PERMISSIONS ≠ 0 then Uint32 b2
        else some (0, b2)) with
  | none => none
  | some (perm, b3) =>
  match (if flags &&& SSH_FILEXFER_ATTR_ACMODTIME ≠ 0 then
          match Uint32 b3 with
          | none => none
          | some (at1, b') =>
            match Uint32 b' with
            | none => none
            | some (mt, b'') => some ((at1, mt), b'')
        else some ((0, 0), b3)) with
  | none => none
  | some ((atv, mtv), b4) =>
  match (if flags &&& SSH_FILEXFER_ATTR_EXTENDED ≠ 0 then
          match Uint32 b4 with
          | none => none
          | some (ec, b') => if 0 < ec then none else some (ec, b')
        else some (0, b4)) with
  | none => none
  | some (ec, b5) =>
    some ({ Size := sz, Uid := uid, Gid := gid, Permissions := perm,
            Atime := atv, Mtime := mtv, ExtendedCount := ec }, b5)

/-- Entry reader of `NameResp.UnmarshalBinary`: filename, longname, flag word,
then the attribute block. -/
def decodeEntry (b : List Nat) : Option (NameRespFile × List Nat) :=
  match readString b with
  | none => none
  | some (fn, b1) =>
    match readString b1 with
    | none => none
    | some (ln, b2) =>
      match Uint32 b2 with
      | none => none
      | some (flags, b3) =>
        match decodeAttrs flags b3 with
        | none => none
        | some (a, b4) => some ({ Filename := fn, Longname := ln, Attrs := a }, b4)

/-- Count-bounded entry loop of `NameResp.UnmarshalBinary`, appending each
decoded entry to the accumulated Names slice. -/
def decodeEntries (n : Nat) (b : List Nat) (acc : List NameRespFile) :
    Option (List NameRespFile × List Nat) :=
  match n with
  | 0 => some (acc, b)
  | n + 1 =>
    match decodeEntry b with
    | none => none
    | some (e, b') => decodeEntries n b' (acc ++ [e])

/-- Model of `NameResp.UnmarshalBinary`: id, count, then count entries. -/
def NameResp.UnmarshalBinary (b : List Nat) : Option NameResp :=
  match Uint32 b with
  | none => none
  | some (id, b1) =>
    match Uint32 b1 with
    | none => none
    | some (count, b2) =>
      match decodeEntries count b2 [] with
      | none => none
      | some (names, _) => some { Id := id, Count := count, Names := names }

/-! Well-formed NameResponse payloads.  `encAttrs`/`encEntry`/`encNamePayload`
build a payload following the wire format of spec section 6: per entry,
length-prefixed filename and longname, the u32 flag word, then exactly the
attribute fields whose bit is set, in the fixed order SIZE, UIDGID,
PERMISSIONS, ACMODTIME, EXTENDED. -/

def encAttrs (flags : Nat) (a : Attrs) : List Nat :=
  (if flags &&& SSH_FILEXFER_ATTR_SIZE ≠ 0 then writeUint64 a.Size else []) ++
  (if flags &&& SSH_FILEXFER_ATTR_UIDGID ≠ 0 then
    writeUint32 a.Uid ++ writeUint32 a.Gid else []) ++
  (if flags &&& SSH_FILEXFER_ATTR_PERMISSIONS ≠ 0 then
    writeUint32 a.Permissions else []) ++
  (if flags &&& SSH_FILEXFER_ATTR_ACMODTIME ≠ 0 then
    writeUint32 a.Atime ++ writeUint32 a.Mtime else []) ++
  (if flags &&& SSH_FILEXFER_ATTR_EXTENDED ≠ 0 then
    writeUint32 a.ExtendedCount else [])

def encEntry (flags : Nat) (e : NameRespFile) : List Nat :=
  writeString e.Filename ++ writeString e.Longname ++ writeUint32 flags ++
    encAttrs flags e.Attrs

def encNamePayload (id : Nat) (es : List (Nat × NameRespFile)) : List Nat :=
  writeUint32 id ++ writeUint32 es.length ++
    es.flatMap (fun p => encEntry p.1 p.2)

/-- Attributes the decoder is expected to produce: the fields whose flag bit
is set, and the Go zero value elsewhere. -/
def maskAttrs (flags : Nat) (a : Attrs) : Attrs :=
  { Size := if flags &&& SSH_FILEXFER_ATTR_SIZE ≠ 0 then a.Size else 0,
    Uid := if flags &&& SSH_FILEXFER_ATTR_UIDGID ≠ 0 then a.Uid else 0,
    Gid := if flags &&& SSH_FILEXFER_ATTR_UIDGID ≠ 0 then a.Gid else 0,
    Permissions := if flags &&& SSH_FILEXFER_ATTR_PERMISSIONS ≠ 0 then a.Permissions else 0,
    Atime := if flags &&& SSH_FILEXFER_ATTR_ACMODTIME ≠ 0 then a.Atime else 0,
    Mtime := if flags &&& SSH_FILEXFER_ATTR_ACMODTIME ≠ 0 then a.Mtime else 0,
    ExtendedCount := if flags &&& SSH_FILEXFER_ATTR_EXTENDED ≠ 0 then a.ExtendedCount else 0 }

def maskEntry (flags : Nat) (e : NameRespFile) : NameRespFile :=
  { e with Attrs := maskAttrs flags e.Attrs }

/-- Field-width bounds making an encoded entry faithful (every value fits the
wire field that carries it). -/
def WFBase (flags : Nat) (e : NameRespFile) : Prop :=
  flags < 4294967296 ∧ e.Filename.length < 4294967296 ∧
  e.Longname.length < 4294967296 ∧ e.Attrs.Size < 18446744073709551616 ∧
  e.Attrs.Uid < 4294967296 ∧ e.Attrs.Gid < 4294967296 ∧
  e.Attrs.Permissions < 4294967296 ∧ e.Attrs.Atime < 4294967296 ∧
  e.Attrs.Mtime < 4294967296 ∧ e.Attrs.ExtendedCount < 4294967296

/-- A decodable entry: in bounds, and carrying no extended attributes when the
EXTENDED bit is set. -/
def WFEntry (flags : Nat) (e : NameRespFile) : Prop :=
  WFBase flags e ∧
    (flags &&& SSH_FILEXFER_ATTR_EXTENDED ≠ 0 → e.Attrs.ExtendedCount = 0)

instance (flags : Nat) (e : NameRespFile) : Decidable (WFBase flags e) := by
  unfold WFBase
  infer_instance

instance (flags : Nat) (e : NameRespFile) : Decidable (WFEntry flags e) := by
  unfold WFEntry
  infer_instance

/-! Session operations (src/session.go).  A blocked channel receive is
modelled by running the operation against the finite script of messages the
demultiplexer delivers on the operation's channel, in order.  The model
returns the list of requests written to the stream and an outcome; running
out of script while a receive is pending is the `blocked` outcome. -/

/-- Directory entry as the session layer sees it; only the fields the
modelled claims touch are carried. -/
structure LsFile where
  Filename : String
  Longname : String := ""
deriving DecidableEq, Repr

/-- Messages delivered on an operation's channel.  `otherMsg` stands for any
message type the operation's switch does not handle. -/
inductive SMsg
  | handleResp (handle : String)
  | statusResp (code : Nat) (errorMessage : String)
  | nameResp (names : List LsFile)
  | dataResp (data : List Nat)
  | otherMsg
deriving DecidableEq, Repr

/-- Requests written to the stream by a session operation. -/
inductive Req
  | openDirReq (id : Nat) (path : String)
  | readDirReq (id : Nat) (handle : String)
  | closeReq (id : Nat) (handle : String)
  | openReq (id : Nat) (filename : String) (pflags : Nat)
  | readReq (id : Nat) (handle : String) (offset : Nat) (len : Nat)
deriving DecidableEq, Repr

/-- Outcome of a session operation: Go return value, Go error, or a receive
that blocks forever because no further message arrives. -/
inductive Outcome (α : Type)
  | ok (a : α)
  | err (e : String)
  | blocked
deriving DecidableEq, Repr

/-- Result of one `Session.ReadReq` exchange. -/
inductive ReadResult
  | data (d : List Nat)
  | eof
  | rerr (e : String)
deriving DecidableEq, Repr

/-- Response handling of `Session.ReadReq` (session.go lines 196-216): a
DataResp yields its payload; a StatusResp with code EOF or code OK yields the
io.EOF sentinel; any other status is an error carrying the server message;
any other message type is an unhandled-type error. -/
def readReqResult : SMsg → ReadResult
  | SMsg.dataResp d => ReadResult.data d
  | SMsg.statusResp c m =>
    if c = SSH_FX_EOF then ReadResult.eof
    else if c = SSH_FX_OK then ReadResult.eof
    else ReadResult.rerr ("error: " ++ m)
  | SMsg.handleResp _ => ReadResult.rerr "unhandled message type"
  | SMsg.nameResp _ => ReadResult.rerr "unhandled message type"
  | SMsg.otherMsg => ReadResult.rerr "unhandled message type"

/-- Fixed read chunk length of `Session.Get`: 255 KiB. -/
def chunkLen : Nat := 255 * 1024

/-- Read loop of `Session.Get`: each iteration sends a ReadRequest at the
current offset with length `chunkLen`, then interprets the response via
`readReqResult`; data is appended to the sink and the offset advanced by
`chunkLen`; EOF leaves the loop normally; an error returns it.  Yields the
requests sent, the loop outcome, the sink contents, and the unconsumed
script. -/
def getLoop (id : Nat) (handle : String) (offset : Nat) (sink : List Nat) :
    List SMsg → List Req × Outcome Unit × List Nat × List SMsg
  | [] => ([Req.readReq id handle offset chunkLen], Outcome.blocked, sink, [])
  | m :: rest =>
    match readReqResult m with
    | ReadResult.data d =>
      let (rs, o, sk, rem) := getLoop id handle (offset + chunkLen) (sink ++ d) rest
      (Req.readReq id handle offset chunkLen :: rs, o, sk, rem)
    | ReadResult.eof =>
      ([Req.readReq id handle offset chunkLen], Outcome.ok (), sink, rest)
    | ReadResult.rerr e =>
      ([Req.readReq id handle offset chunkLen], Outcome.err e, sink, rest)

/-- Model of `Session.Get` (session.go lines 160-194): OpenRequest with the
read pflag; on a HandleResponse run the read loop, and — via defer — send
exactly one CloseRequest and await its response on every path leaving the
loop; the close status is ignored.  On a StatusResponse or unexpected
message at open time, fail without any close. -/
def getModel (id : Nat) (path : String) :
    List SMsg → List Req × Outcome Unit × List Nat
  | [] => ([Req.openReq id path SSH_FXF_READ], Outcome.blocked, [])
  | m :: rest =>
    match m with
    | SMsg.handleResp h =>
      let (rs, o, sink, rem) := getLoop id h 0 [] rest
      match o with
      | Outcome.blocked =>
        (Req.openReq id path SSH_FXF_READ :: rs, Outcome.blocked, sink)
      | o' =>
        match rem with
        | [] => (Req.openReq id path SSH_FXF_READ :: rs ++ [Req.closeReq id h],
                 Outcome.blocked, sink)
        | _ :: _ => (Req.openReq id path SSH_FXF_READ :: rs ++ [Req.closeReq id h],
                     o', sink)
    | SMsg.statusResp _ msg =>
      ([Req.openReq id path SSH_FXF_READ], Outcome.err ("error: " ++ msg), [])
    | _ => ([Req.openReq id path SSH_FXF_READ],
            Outcome.err "unhandled message type", [])

/-- Result of the readdir loop of `Session.Ls`. -/
inductive LsLoopRes
  | done (names : List LsFile) (rest : List SMsg)
  | failed (e : String)
  | stalled
deriving DecidableEq, Repr

/-- Readdir loop of `Session.Ls` (session.go lines 110-125): each iteration
sends a ReadDirRequest; a NameResponse appends its entries and continues; a
StatusResponse with code EOF leaves the loop; any other status or message
type returns an error immediately — without reaching the close step. -/
def lsLoop (id : Nat) (handle : String) (acc : List LsFile) :
    List SMsg → List Req × LsLoopRes
  | [] => ([Req.readDirReq id handle], LsLoopRes.stalled)
  | m :: rest =>
    match m with
    | SMsg.nameResp ns =>
      let (rs, res) := lsLoop id handle (acc ++ ns) rest
      (Req.readDirReq id handle :: rs, res)
    | SMsg.statusResp c msg =>
      if c = SSH_FX_EOF then ([Req.readDirReq id handle], LsLoopRes.done acc rest)
      else ([Req.readDirReq id handle], LsLoopRes.failed ("error: " ++ msg))
    | _ => ([Req.readDirReq id handle], LsLoopRes.failed "unhandled message type")

/-- Go string comparison (bytewise lexicographic; on the valid UTF-8 data of
Lean strings, code-point order coincides with byte order), in its reflexive
closure: true when the first string sorts at-or-before the second. -/
def charListLe : List Char → List Char → Bool
  | [], _ => true
  | _ :: _, [] => false
  | a :: s, b :: t =>
    if a.toNat < b.toNat then true
    else if b.toNat < a.toNat then false
    else charListLe s t

/-- Ordering on directory entries used by the sort.Slice call of
`Session.Ls`, whose comparator is Filename i < Filename j. -/
def leFile (a b : LsFile) : Prop :=
  charListLe a.Filename.data b.Filename.data = true

instance : DecidableRel leFile :=
  fun a b => inferInstanceAs (Decidable (charListLe a.Filename.data b.Filename.data = true))

/-- Model of the sort.Slice call in `Session.Ls`: the entries ordered by
ascending filename. -/
def sortByFilename (ns : List LsFile) : List LsFile :=
  List.insertionSort leFile ns

/-- Model of `Session.Ls` (session.go lines 91-131): OpenDirRequest; on a
HandleResponse run the readdir loop; only when the loop ends with the EOF
status does Ls send a CloseRequest (awaiting and ignoring its response) and
return the entries sorted by filename; a loop failure returns at once with no
CloseRequest; a StatusResponse or unexpected message at open time also fails
with no close. -/
def lsModel (id : Nat) (path : String) :
    List SMsg → List Req × Outcome (List LsFile)
  | [] => ([Req.openDirReq id path], Outcome.blocked)
  | m :: rest =>
    match m with
    | SMsg.handleResp h =>
      match lsLoop id h [] rest with
      | (rs, LsLoopRes.done names rest2) =>
        match rest2 with
        | [] => (Req.openDirReq id path :: rs ++ [Req.closeReq id h], Outcome.blocked)
        | _ :: _ => (Req.openDirReq id path :: rs ++ [Req.closeReq id h],
                     Outcome.ok (sortByFilename names))
      | (rs, LsLoopRes.failed e) => (Req.openDirReq id path :: rs, Outcome.err e)
      | (rs, LsLoopRes.stalled) => (Req.openDirReq id path :: rs, Outcome.blocked)
    | SMsg.statusResp _ msg =>
      ([Req.openDirReq id path], Outcome.err ("error: " ++ msg))
    | _ => ([Req.openDirReq id path], Outcome.err "unhandled message type")

/-- Number of CloseRequests carrying the given id and handle in a request
list. -/
def closeCount (id : Nat) (handle : String) (rs : List Req) : Nat :=
  (rs.filter fun r => decide (r = Req.closeReq id handle)).length

/-! Background reader loop (src/writer.go lines 318-343).  One loop iteration
either observes the cancellation signal or performs one read; the finite
event list is what the stream/context produce, in order.  The pending-slot
table `rChan` is modelled by the list of ids with a registered slot plus the
deliveries made. -/

/-- One observable input to the reader loop. -/
inductive REvent
  | rmsg (id : Option Nat) (m : SMsg)
  | reof
  | rerr
  | rcancel
deriving DecidableEq, Repr

/-- Whether the reader loop has returned, is still looping, or is stuck in a
send on a nil channel. -/
inductive HStatus
  | running
  | terminated
  | stuck
deriving DecidableEq, Repr

/-- Model of `reader.handler`: on ctx.Done return nil (pending slots and
deliveries untouched); on io.EOF continue the loop; on a decoded message
carrying a sequence id, create the slot on demand and deliver to it; on a
message without an id, or on a non-EOF read error (which leaves msg nil and
still reaches the delivery branch), send on slot 0 — blocking forever when no
slot 0 exists. -/
def handlerRun (pending : List Nat) (delivered : List (Nat × Option SMsg)) :
    List REvent → HStatus × List Nat × List (Nat × Option SMsg)
  | [] => (HStatus.running, pending, delivered)
  | e :: rest =>
    match e with
    | REvent.rcancel => (HStatus.terminated, pending, delivered)
    | REvent.reof => handlerRun pending delivered rest
    | REvent.rmsg (some id) m =>
      handlerRun (if id ∈ pending then pending else pending ++ [id])
        (delivered ++ [(id, some m)]) rest
    | REvent.rmsg none m =>
      if 0 ∈ pending then handlerRun pending (delivered ++ [(0, some m)]) rest
      else (HStatus.stuck, pending, delivered)
    | REvent.rerr =>
      if 0 ∈ pending then handlerRun pending (delivered ++ [(0, none)]) rest
      else (HStatus.stuck, pending, delivered)

/-! FileMode (src/writer.go lines 228-266). -/

def ModeType : Nat := 61440
def ModeDir : Nat := 16384
def ModeRegular : Nat := 32768

/-- Byte values of the string constant rwxrwxrwx. -/
def rwx : List Nat := [114, 119, 120, 114, 119, 120, 114, 119, 120]

/-- Model of `FileMode.String`: a 10-byte buffer whose first byte is d for the
directory type, a dash for the regular type, and stays at the zero byte
otherwise; bytes 1-9 come from rwxrwxrwx with a dash wherever the bit
1 <<< (9-1-i) of the mode is clear. -/
def FileMode.String (m : Nat) : List Nat :=
  (if m &&& ModeType = ModeDir then 100
   else if m &&& ModeType = ModeRegular then 45 else 0) ::
  (List.range 9).map (fun i =>
    if m &&& (1 <<< (9 - 1 - i)) ≠ 0 then rwx.getD i 0 else 45)

/-! UnseenFileVisitor (src/writer.go lines 41-75, the walker revision whose
NameRespFile carries the containing directory in a Path field). -/

/-- Directory entry as the visitor sees it: containing path, filename, and
the size attribute the seen-map comparison uses. -/
structure WalkFile where
  Path : String
  Filename : String
  Size : Nat
deriving DecidableEq, Repr

/-- Visitor state: excluded full paths, the previously-seen map (modelled as
an association list from full path to the entry recorded for it), and the
accepted entries. -/
structure UnseenFileVisitor where
  exclude : List String
  seen : List (String × WalkFile)
  found : List WalkFile
deriving DecidableEq, Repr

/-- Model of filepath.Join for a directory plus a file name; the Clean
normalisation Go performs is irrelevant to the visitor claims, which hold for
any function of the pair. -/
def fpJoin (p fn : String) : String :=
  if p = "" then fn else p ++ "/" ++ fn

/-- Model of `UnseenFileVisitor.Visit`: reject when the joined path is
excluded, or when it was seen before with an identical size; otherwise append
the entry to found and accept.  Neither seen nor exclude is ever written. -/
def UnseenFileVisitor.Visit (u : UnseenFileVisitor) (file : WalkFile) :
    Bool × UnseenFileVisitor :=
  let fn := fpJoin file.Path file.Filename
  if fn ∈ u.exclude then (false, u)
  else
    match u.seen.lookup fn with
    | some prev =>
      if prev.Size = file.Size then (false, u)
      else (true, { u with found := u.found ++ [file] })
    | none => (true, { u with found := u.found ++ [file] })

/-! Theorems for the claims. -/

theorem Uint32_writeUint32 (v : Nat) (r : List Nat) (h : v < 4294967296) :
    Uint32 (writeUint32 v ++ r) = some (v, r) := by
  simp only [writeUint32, List.cons_append, List.nil_append, Uint32,
    Option.some.injEq, Prod.mk.injEq]
  exact ⟨by omega, trivial⟩

theorem Uint64_writeUint64 (v : Nat) (r : List Nat) (h : v < 18446744073709551616) :
    Uint64 (writeUint64 v ++ r) = some (v, r) := by
  simp only [writeUint64, List.cons_append, List.nil_append, Uint64,
    Option.some.injEq, Prod.mk.injEq]
  exact ⟨by omega, trivial⟩

theorem take_length_append {α : Type} (s r : List α) : (s ++ r).take s.length = s := by
  induction s with
  | nil => simp
  | cons a t ih => simp [ih]

theorem drop_length_append {α : Type} (s r : List α) : (s ++ r).drop s.length = r := by
  induction s with
  | nil => simp
  | cons a t ih => simp [ih]

theorem readString_writeString (s r : List Nat) (h : s.length < 4294967296) :
    readString (writeString s ++ r) = some (s, r) := by
  simp only [readString, writeString, List.append_assoc,
    Uint32_writeUint32 s.length (s ++ r) h]
  rw [if_pos (by simp)]
  rw [take_length_append, drop_length_append]

theorem decodeAttrs_encAttrs (flags : Nat) (a : Attrs) (r : List Nat)
    (hsz : a.Size < 18446744073709551616) (huid : a.Uid < 4294967296)
    (hgid : a.Gid < 4294967296) (hperm : a.Permissions < 4294967296)
    (hat : a.Atime < 4294967296) (hmt : a.Mtime < 4294967296)
    (hec : flags &&& SSH_FILEXFER_ATTR_EXTENDED ≠ 0 → a.ExtendedCount = 0) :
    decodeAttrs flags (encAttrs flags a ++ r) = some (maskAttrs flags a, r) := by
  by_cases h1 : flags &&& SSH_FILEXFER_ATTR_SIZE ≠ 0 <;>
    by_cases h2 : flags &&& SSH_FILEXFER_ATTR_UIDGID ≠ 0 <;>
    by_cases h3 : flags &&& SSH_FILEXFER_ATTR_PERMISSIONS ≠ 0 <;>
    by_cases h4 : flags &&& SSH_FILEXFER_ATTR_ACMODTIME ≠ 0 <;>
    by_cases h5 : flags &&& SSH_FILEXFER_ATTR_EXTENDED ≠ 0 <;>
    simp [decodeAttrs, encAttrs, maskAttrs, h1, h2, h3, h4, h5, hec,
      List.append_assoc, Uint64_writeUint64, Uint32_writeUint32,
      hsz, huid, hgid, hperm, hat, hmt]

theorem decodeAttrs_encAttrs_ext (flags : Nat) (a : Attrs) (r : List Nat)
    (hsz : a.Size < 18446744073709551616) (huid : a.Uid < 4294967296)
    (hgid : a.Gid < 4294967296) (hperm : a.Permissions < 4294967296)
    (hat : a.Atime < 4294967296) (hmt : a.Mtime < 4294967296)
    (hecb : a.ExtendedCount < 4294967296)
    (hext : flags &&& SSH_FILEXFER_ATTR_EXTENDED ≠ 0)
    (hec : 0 < a.ExtendedCount) :
    decodeAttrs flags (encAttrs flags a ++ r) = none := by
  by_cases h1 : flags &&& SSH_FILEXFER_ATTR_SIZE ≠ 0 <;>
    by_cases h2 : flags &&& SSH_FILEXFER_ATTR_UIDGID ≠ 0 <;>
    by_cases h3 : flags &&& SSH_FILEXFER_ATTR_PERMISSIONS ≠ 0 <;>
    by_cases h4 : flags &&& SSH_FILEXFER_ATTR_ACMODTIME ≠ 0 <;>
    simp [decodeAttrs, encAttrs, h1, h2, h3, h4, hext, hec,
      List.append_assoc, Uint64_writeUint64, Uint32_writeUint32,
      hsz, huid, hgid, hperm, hat, hmt, hecb, Nat.not_lt, Nat.le_zero, Nat.pos_iff_ne_zero]

theorem decodeEntry_encEntry (flags : Nat) (e : NameRespFile) (r : List Nat)
    (hwf : WFEntry flags e) :
    decodeEntry (encEntry flags e ++ r) = some (maskEntry flags e, r) := by
  obtain ⟨⟨hfl, hfn, hln, hsz, huid, hgid, hperm, hat, hmt, hecb⟩, hec⟩ := hwf
  simp only [decodeEntry, encEntry, List.append_assoc,
    readString_writeString e.Filename _ hfn,
    readString_writeString e.Longname _ hln,
    Uint32_writeUint32 flags _ hfl,
    decodeAttrs_encAttrs flags e.Attrs r hsz huid hgid hperm hat hmt hec]
  rfl

theorem decodeEntry_encEntry_ext (flags : Nat) (e : NameRespFile) (r : List Nat)
    (hwb : WFBase flags e)
    (hext : flags &&& SSH_FILEXFER_ATTR_EXTENDED ≠ 0)
    (hec : 0 < e.Attrs.ExtendedCount) :
    decodeEntry (encEntry flags e ++ r) = none := by
  obtain ⟨hfl, hfn, hln, hsz, huid, hgid, hperm, hat, hmt, hecb⟩ := hwb
  simp only [decodeEntry, encEntry, List.append_assoc,
    readString_writeString e.Filename _ hfn,
    readString_writeString e.Longname _ hln,
    Uint32_writeUint32 flags _ hfl,
    decodeAttrs_encAttrs_ext flags e.Attrs r hsz huid hgid hperm hat hmt hecb hext hec]

theorem decodeEntries_step (n : Nat) (b b' : List Nat) (acc : List NameRespFile)
    (e : NameRespFile) (h : decodeEntry b = some (e, b')) :
    decodeEntries (n + 1) b acc = decodeEntries n b' (acc ++ [e]) := by
  rw [decodeEntries, h]

theorem decodeEntries_fail (n : Nat) (b : List Nat) (acc : List NameRespFile)
    (h : decodeEntry b = none) :
    decodeEntries (n + 1) b acc = none := by
  rw [decodeEntries, h]

theorem decodeEntries_enc (es : List (Nat × NameRespFile)) (acc : List NameRespFile)
    (r : List Nat) (hwf : ∀ p ∈ es, WFEntry p.1 p.2) :
    decodeEntries es.length ((es.flatMap fun p => encEntry p.1 p.2) ++ r) acc
      = some (acc ++ es.map (fun p => maskEntry p.1 p.2), r) := by
  induction es generalizing acc with
  | nil => simp [decodeEntries]
  | cons p t ih =>
    have hp : WFEntry p.1 p.2 := hwf p (List.mem_cons_self p t)
    have ht : ∀ q ∈ t, WFEntry q.1 q.2 := fun q hq => hwf q (List.mem_cons_of_mem p hq)
    rw [List.flatMap_cons, List.length_cons, List.append_assoc,
      decodeEntries_step t.length _ _ acc (maskEntry p.1 p.2)
        (decodeEntry_encEntry p.1 p.2 _ hp),
      ih (acc ++ [maskEntry p.1 p.2]) ht]
    simp

theorem decodeEntries_enc_ext (es : List (Nat × NameRespFile)) (flags : Nat)
    (e : NameRespFile) (acc : List NameRespFile) (r : List Nat)
    (hwf : ∀ p ∈ es, WFEntry p.1 p.2) (hwb : WFBase flags e)
    (hext : flags &&& SSH_FILEXFER_ATTR_EXTENDED ≠ 0)
    (hec : 0 < e.Attrs.ExtendedCount) :
    decodeEntries (es.length + 1)
      ((es.flatMap fun p => encEntry p.1 p.2) ++ encEntry flags e ++ r) acc = none := by
  induction es generalizing acc with
  | nil =>
    rw [List.flatMap_nil, List.length_nil, List.nil_append,
      decodeEntries_fail 0 _ acc (decodeEntry_encEntry_ext flags e r hwb hext hec)]
  | cons p t ih =>
    have hp : WFEntry p.1 p.2 := hwf p (List.mem_cons_self p t)
    have ht : ∀ q ∈ t, WFEntry q.1 q.2 := fun q hq => hwf q (List.mem_cons_of_mem p hq)
    rw [List.flatMap_cons, List.length_cons, List.append_assoc, List.append_assoc,
      decodeEntries_step (t.length + 1) _ _ acc (maskEntry p.1 p.2)
        (decodeEntry_encEntry p.1 p.2 _ hp)]
    simpa [List.append_assoc] using ih (acc ++ [maskEntry p.1 p.2]) ht


/-- C6: during a file-read loop, a StatusResponse with code OK (0) is treated
exactly like one with code EOF (1) — both yield the io.EOF sentinel and
terminate the Get loop as end-of-file — while every status code other than OK
and EOF produces an error carrying the server-supplied message. -/
theorem C6_ok_treated_as_eof :
    (∀ m, readReqResult (SMsg.statusResp SSH_FX_OK m) = ReadResult.eof) ∧
    (∀ m, readReqResult (SMsg.statusResp SSH_FX_EOF m) = ReadResult.eof) ∧
    (∀ c m, c ≠ SSH_FX_OK → c ≠ SSH_FX_EOF →
      readReqResult (SMsg.statusResp c m) = ReadResult.rerr ("error: " ++ m)) ∧
    (∀ id h off sink m rest,
      getLoop id h off sink (SMsg.statusResp SSH_FX_OK m :: rest)
        = getLoop id h off sink (SMsg.statusResp SSH_FX_EOF m :: rest)) := by
  refine ⟨fun m => rfl, fun m => rfl, fun c m h0 h1 => ?_, fun id h off sink m rest => ?_⟩
  · simp only [SSH_FX_OK] at h0
    simp only [SSH_FX_EOF] at h1
    simp [readReqResult, SSH_FX_OK, SSH_FX_EOF, h0, h1]
  · simp [getLoop, readReqResult, SSH_FX_OK, SSH_FX_EOF]

/-- C6 witness at status code 2 (NO_SUCH_FILE). -/
theorem C6_ok_treated_as_eof_witness :
    readReqResult (SMsg.statusResp 2 "nsf") = ReadResult.rerr ("error: " ++ "nsf") :=
  C6_ok_treated_as_eof.2.2.1 2 "nsf" (by decide) (by decide)

/-- C9: when the 4-bit type field of a mode is neither the directory type nor
the regular-file type, FileMode.String still returns exactly 10 bytes, the
first of which is the zero (NUL) byte, while bytes 1-9 render the permission
bits as usual. -/
theorem C9_filemode_nul (m : Nat) (h1 : m &&& ModeType ≠ ModeDir)
    (h2 : m &&& ModeType ≠ ModeRegular) :
    (FileMode.String m).length = 10 ∧
    (FileMode.String m).headD 1 = 0 ∧
    (FileMode.String m).tail = (List.range 9).map (fun i =>
      if m &&& (1 <<< (8 - i)) ≠ 0 then rwx.getD i 0 else 45) := by
  refine ⟨by simp [FileMode.String], by simp [FileMode.String, h1, h2], ?_⟩
  simp [FileMode.String]

/-- C9 witness at mode 511 (permission bits 0777, type field zero). -/
theorem C9_filemode_nul_witness :
    (FileMode.String 511).length = 10 ∧
    (FileMode.String 511).headD 1 = 0 ∧
    (FileMode.String 511).tail = (List.range 9).map (fun i =>
      if 511 &&& (1 <<< (8 - i)) ≠ 0 then rwx.getD i 0 else 45) :=
  C9_filemode_nul 511 (by decide) (by decide)

/-- C10: Visit never changes the seen map or the exclusion list; acceptance
appends exactly the visited entry to found and rejection changes nothing; and
since an accepted entry is never recorded in seen, visiting it again accepts
and appends it a second time. -/
theorem C10_visit_frame (u : UnseenFileVisitor) (f : WalkFile) :
    (u.Visit f).2.exclude = u.exclude ∧
    (u.Visit f).2.seen = u.seen ∧
    ((u.Visit f).1 = true → (u.Visit f).2.found = u.found ++ [f]) ∧
    ((u.Visit f).1 = false → (u.Visit f).2.found = u.found) ∧
    ((u.Visit f).1 = true → ((u.Visit f).2.Visit f).1 = true ∧
      ((u.Visit f).2.Visit f).2.found = u.found ++ [f, f]) := by
  by_cases hex : fpJoin f.Path f.Filename ∈ u.exclude
  · simp [UnseenFileVisitor.Visit, hex]
  · cases hlk : u.seen.lookup (fpJoin f.Path f.Filename) with
    | none => simp [UnseenFileVisitor.Visit, hex, hlk]
    | some prev =>
      by_cases hsz : prev.Size = f.Size
      · simp [UnseenFileVisitor.Visit, hex, hlk, hsz]
      · simp [UnseenFileVisitor.Visit, hex, hlk, hsz]

/-- C10 witness: a fresh visitor accepts a new entry twice in a row. -/
theorem C10_visit_frame_witness :
    let u : UnseenFileVisitor := ⟨[], [], []⟩
    let f : WalkFile := ⟨"/share", "a.txt", 3⟩
    (u.Visit f).2.seen = u.seen ∧ ((u.Visit f).2.Visit f).2.found = u.found ++ [f, f] :=
  ⟨(C10_visit_frame ⟨[], [], []⟩ ⟨"/share", "a.txt", 3⟩).2.1,
   ((C10_visit_frame ⟨[], [], []⟩ ⟨"/share", "a.txt", 3⟩).2.2.2.2 (by decide)).2⟩

/-- C2 counterexample: OpenDirReq has both MarshalBinary and UnmarshalBinary
defined, yet unmarshaling the marshaled bytes into a fresh receiver does not
reproduce the value, because UnmarshalBinary is a stub that never reads the
buffer. -/
theorem C2_counterexample :
    ¬ OpenDirReq.UnmarshalBinary ⟨0, []⟩ (OpenDirReq.MarshalBinary ⟨1, []⟩)
      = some ⟨1, []⟩ := by
  decide

/-- C2 amended: the round-trip holds only for the InitReq version word
(Extensions are never written nor read); for OpenDirReq, ReadDirReq,
CloseReq, OpenReq and ReadReq the UnmarshalBinary direction is a stub that
returns the receiver unchanged on every input, so unmarshal(marshal(m))
yields the fresh zero receiver rather than m. -/
theorem C2_amended :
    (∀ v, v < 4294967296 →
      InitReq.UnmarshalBinary { Version := 0 } (InitReq.MarshalBinary { Version := v })
        = some { Version := v }) ∧
    (∀ (z : OpenDirReq) (b : List Nat), z.UnmarshalBinary b = some z) ∧
    (∀ (z : ReadDirReq) (b : List Nat), z.UnmarshalBinary b = some z) ∧
    (∀ (z : CloseReq) (b : List Nat), z.UnmarshalBinary b = some z) ∧
    (∀ (z : OpenReq) (b : List Nat), z.UnmarshalBinary b = some z) ∧
    (∀ (z : ReadReq) (b : List Nat), z.UnmarshalBinary b = some z) := by
  refine ⟨fun v hv => ?_, fun z b => rfl, fun z b => rfl, fun z b => rfl,
    fun z b => rfl, fun z b => rfl⟩
  have h : Uint32 (writeUint32 v ++ []) = some (v, []) := Uint32_writeUint32 v [] hv
  simp only [List.append_nil] at h
  simp [InitReq.UnmarshalBinary, InitReq.MarshalBinary, h]

/-- C2 amended witness at version 7 and a sample stub unmarshal. -/
theorem C2_amended_witness :
    InitReq.UnmarshalBinary { Version := 0 } (InitReq.MarshalBinary { Version := 7 })
      = some { Version := 7 } ∧
    OpenDirReq.UnmarshalBinary ⟨3, []⟩ [9, 9] = some ⟨3, []⟩ :=
  ⟨C2_amended.1 7 (by decide), C2_amended.2.1 ⟨3, []⟩ [9, 9]⟩

/-- C7 counterexample: for the one-character path containing é the marshaled
OpenDirRequest length prefix is the rune count 1, not the UTF-8 byte count 2,
so the layout differs from the byte-count-prefixed layout the claim states. -/
theorem C7_counterexample :
    OpenDirReq.MarshalBinary ⟨0, ['é']⟩
      ≠ writeUint32 0 ++ writeUint32 (utf8Bytes ['é']).length ++ utf8Bytes ['é'] := by
  decide

theorem utf8Enc_length_ascii (c : Char) (h : c.toNat < 128) :
    (utf8Enc c).length = 1 := by
  simp [utf8Enc, h]

theorem utf8Bytes_length_ascii (s : List Char) (h : ∀ c ∈ s, c.toNat < 128) :
    (utf8Bytes s).length = s.length := by
  induction s with
  | nil => simp [utf8Bytes]
  | cons a t ih =>
    have ha := utf8Enc_length_ascii a (h a (List.mem_cons_self a t))
    have ht := ih (fun c hc => h c (List.mem_cons_of_mem a hc))
    simp only [utf8Bytes, List.flatMap_cons, List.length_append, List.length_cons] at *
    omega

/-- C7 amended: the marshaled OpenDirRequest is the big-endian u32 id, then a
u32 equal to the number of runes (Unicode code points) of the path, then the
path's UTF-8 bytes; the prefix equals the byte count exactly when every
character of the path is single-byte (ASCII). -/
theorem C7_amended (r : OpenDirReq) :
    r.MarshalBinary = writeUint32 r.Id ++ writeUint32 r.Path.length ++ utf8Bytes r.Path ∧
    ((∀ c ∈ r.Path, c.toNat < 128) → (utf8Bytes r.Path).length = r.Path.length) :=
  ⟨rfl, fun h => utf8Bytes_length_ascii r.Path h⟩

/-- C7 amended witness on the ASCII path ab. -/
theorem C7_amended_witness :
    OpenDirReq.MarshalBinary ⟨5, ['a', 'b']⟩
      = writeUint32 5 ++ writeUint32 (['a', 'b'] : List Char).length
        ++ utf8Bytes ['a', 'b'] ∧
    (utf8Bytes ['a', 'b']).length = (['a', 'b'] : List Char).length :=
  ⟨(C7_amended ⟨5, ['a', 'b']⟩).1, (C7_amended ⟨5, ['a', 'b']⟩).2 (by decide)⟩

/-- C3: on a well-formed NameResponse payload the unmarshaller reads, for each
of the count entries, the filename, the longname and the u32 flag word, then
consumes exactly the attribute fields whose flag bit is set, in the fixed
order SIZE, UIDGID, PERMISSIONS, ACMODTIME, EXTENDED, skipping absent fields
(so the decoded entries carry the flagged values and zeros elsewhere, and
every subsequent entry is still read from the correct position); and when an
EXTENDED count greater than zero is present, decoding fails fast instead of
silently dropping bytes. -/
theorem C3_nameResp_decode (id : Nat) (es : List (Nat × NameRespFile))
    (hid : id < 4294967296) (hlen : es.length + 1 < 4294967296)
    (hwf : ∀ p ∈ es, WFEntry p.1 p.2) :
    NameResp.UnmarshalBinary (encNamePayload id es)
      = some { Id := id, Count := es.length,
               Names := es.map (fun p => maskEntry p.1 p.2) } ∧
    (∀ fl e, fl &&& SSH_FILEXFER_ATTR_EXTENDED ≠ 0 → 0 < e.Attrs.ExtendedCount →
      WFBase fl e →
      NameResp.UnmarshalBinary (encNamePayload id (es ++ [(fl, e)])) = none) := by
  constructor
  · have h1 : Uint32 (encNamePayload id es)
        = some (id, writeUint32 es.length ++ es.flatMap (fun p => encEntry p.1 p.2)) := by
      rw [encNamePayload, List.append_assoc]
      exact Uint32_writeUint32 id _ hid
    have h2 : Uint32 (writeUint32 es.length ++ es.flatMap (fun p => encEntry p.1 p.2))
        = some (es.length, es.flatMap (fun p => encEntry p.1 p.2)) :=
      Uint32_writeUint32 _ _ (by omega)
    have h3 : decodeEntries es.length (es.flatMap (fun p => encEntry p.1 p.2)) []
        = some (es.map (fun p => maskEntry p.1 p.2), []) := by
      have h := decodeEntries_enc es [] [] hwf
      simpa using h
    simp [NameResp.UnmarshalBinary, h1, h2, h3]
  · intro fl e hext hec hwb
    have h1 : Uint32 (encNamePayload id (es ++ [(fl, e)]))
        = some (id, writeUint32 (es.length + 1)
            ++ (es ++ [(fl, e)]).flatMap (fun p => encEntry p.1 p.2)) := by
      rw [encNamePayload, List.append_assoc, List.length_append]
      exact Uint32_writeUint32 id _ hid
    have h2 : Uint32 (writeUint32 (es.length + 1)
          ++ ((es.flatMap fun p => encEntry p.1 p.2) ++ encEntry fl e))
        = some (es.length + 1, (es.flatMap fun p => encEntry p.1 p.2) ++ encEntry fl e) :=
      Uint32_writeUint32 _ _ (by omega)
    have h3 : decodeEntries (es.length + 1)
        ((es.flatMap fun p => encEntry p.1 p.2) ++ encEntry fl e) [] = none := by
      have h := decodeEntries_enc_ext es fl e [] [] hwf hwb hext hec
      simpa using h
    simp [NameResp.UnmarshalBinary, h1, h2, h3]

/-- C3 witness: a payload with one SIZE+PERMISSIONS entry decodes to exactly
those fields, and appending an entry whose EXTENDED count is 1 makes decoding
fail. -/
theorem C3_nameResp_decode_witness :
    NameResp.UnmarshalBinary
        (encNamePayload 1 [(5, ⟨[97], [108], { Size := 7, Permissions := 493 }⟩)])
      = some { Id := 1, Count := 1,
               Names := [maskEntry 5 ⟨[97], [108], { Size := 7, Permissions := 493 }⟩] } ∧
    NameResp.UnmarshalBinary
        (encNamePayload 1 ([(5, ⟨[97], [108], { Size := 7, Permissions := 493 }⟩)]
          ++ [(2147483648, ⟨[98], [], { ExtendedCount := 1 }⟩)])) = none :=
  ⟨(C3_nameResp_decode 1 [(5, ⟨[97], [108], { Size := 7, Permissions := 493 }⟩)]
      (by decide) (by decide)
      (by intro p hp; simp at hp; subst hp; exact ⟨by decide, by decide⟩)).1,
   (C3_nameResp_decode 1 [(5, ⟨[97], [108], { Size := 7, Permissions := 493 }⟩)]
      (by decide) (by decide)
      (by intro p hp; simp at hp; subst hp; exact ⟨by decide, by decide⟩)).2
     2147483648 ⟨[98], [], { ExtendedCount := 1 }⟩ (by decide) (by decide) (by decide)⟩

theorem closeCount_cons (cid : Nat) (ch : String) (r : Req) (rs : List Req) :
    closeCount cid ch (r :: rs)
      = (if r = Req.closeReq cid ch then 1 else 0) + closeCount cid ch rs := by
  by_cases hr : r = Req.closeReq cid ch <;>
    simp [closeCount, List.filter_cons, hr, Nat.add_comm]

theorem closeCount_append (cid : Nat) (ch : String) (l1 l2 : List Req) :
    closeCount cid ch (l1 ++ l2) = closeCount cid ch l1 + closeCount cid ch l2 := by
  simp [closeCount, List.filter_append]

theorem getLoop_closeCount (script : List SMsg) (id : Nat) (h : String)
    (off : Nat) (sink : List Nat) (cid : Nat) (ch : String) :
    closeCount cid ch (getLoop id h off sink script).1 = 0 := by
  induction script generalizing off sink with
  | nil => simp [getLoop, closeCount, List.filter_cons]
  | cons m rest ih =>
    cases hr : readReqResult m with
    | data d =>
      simp only [getLoop, hr]
      rw [closeCount_cons]
      simp [ih]
    | eof => simp [getLoop, hr, closeCount, List.filter_cons]
    | rerr e => simp [getLoop, hr, closeCount, List.filter_cons]

theorem lsLoop_closeCount (script : List SMsg) (id : Nat) (h : String)
    (acc : List LsFile) (cid : Nat) (ch : String) :
    closeCount cid ch (lsLoop id h acc script).1 = 0 := by
  induction script generalizing acc with
  | nil => simp [lsLoop, closeCount, List.filter_cons]
  | cons m rest ih =>
    cases m with
    | nameResp ns =>
      simp only [lsLoop]
      rw [closeCount_cons]
      simp [ih]
    | statusResp c msg =>
      by_cases hc : c = SSH_FX_EOF <;>
        simp [lsLoop, hc, closeCount, List.filter_cons]
    | handleResp h' => simp [lsLoop, closeCount, List.filter_cons]
    | dataResp d => simp [lsLoop, closeCount, List.filter_cons]
    | otherMsg => simp [lsLoop, closeCount, List.filter_cons]

/-- C1 counterexample: Ls obtains a handle (a HandleResponse is received for
the OpenDirRequest) and the readdir loop then fails with a remote error
status; the operation returns having sent only OpenDirRequest and
ReadDirRequest — zero CloseRequests — contradicting the claimed exactly-one
CloseRequest on every exit path. -/
theorem C1_counterexample :
    lsModel 1 "/x" [SMsg.handleResp "h", SMsg.statusResp 4 "boom"]
      = ([Req.openDirReq 1 "/x", Req.readDirReq 1 "h"], Outcome.err "error: boom") ∧
    closeCount 1 "h"
      (lsModel 1 "/x" [SMsg.handleResp "h", SMsg.statusResp 4 "boom"]).1 = 0 := by
  decide

/-- C1 amended: Get sends exactly one CloseRequest carrying the opened handle
on every path on which it returns after obtaining a handle (normal EOF
completion, remote error status, and mid-loop failure alike, via defer); Ls
sends exactly one CloseRequest when its readdir loop completes with the EOF
status, but sends none when the loop fails mid-way with an error or a
non-EOF status. -/
theorem C1_amended :
    (∀ id path h script reqs o sink,
      getModel id path (SMsg.handleResp h :: script) = (reqs, o, sink) →
      o ≠ Outcome.blocked → closeCount id h reqs = 1) ∧
    (∀ id path h script reqs names,
      lsModel id path (SMsg.handleResp h :: script) = (reqs, Outcome.ok names) →
      closeCount id h reqs = 1) ∧
    (∀ id path h script reqs e,
      lsModel id path (SMsg.handleResp h :: script) = (reqs, Outcome.err e) →
      closeCount id h reqs = 0) := by
  refine ⟨?_, ?_, ?_⟩
  · intro id path h script reqs o sink hm hnb
    simp only [getModel] at hm
    rcases hgl : getLoop id h 0 [] script with ⟨rs, o', sk, rem⟩
    rw [hgl] at hm
    cases o' with
    | blocked =>
      simp at hm
      exact absurd hm.2.1.symm hnb
    | ok u =>
      cases rem with
      | nil =>
        simp at hm
        exact absurd hm.2.1.symm hnb
      | cons a b =>
        simp at hm
        rw [← hm.1, closeCount_cons, closeCount_append]
        have := getLoop_closeCount script id h 0 [] id h
        rw [hgl] at this
        simp_all [closeCount, List.filter_cons]
    | err e =>
      cases rem with
      | nil =>
        simp at hm
        exact absurd hm.2.1.symm hnb
      | cons a b =>
        simp at hm
        rw [← hm.1, closeCount_cons, closeCount_append]
        have := getLoop_closeCount script id h 0 [] id h
        rw [hgl] at this
        simp_all [closeCount, List.filter_cons]
  · intro id path h script reqs names hm
    simp only [lsModel] at hm
    rcases hll : lsLoop id h [] script with ⟨rs, res⟩
    rw [hll] at hm
    cases res with
    | done names' rest2 =>
      cases rest2 with
      | nil => simp at hm
      | cons a b =>
        simp at hm
        rw [← hm.1, closeCount_cons, closeCount_append]
        have := lsLoop_closeCount script id h [] id h
        rw [hll] at this
        simp_all [closeCount, List.filter_cons]
    | failed e => simp at hm
    | stalled => simp at hm
  · intro id path h script reqs e hm
    simp only [lsModel] at hm
    rcases hll : lsLoop id h [] script with ⟨rs, res⟩
    rw [hll] at hm
    cases res with
    | done names' rest2 =>
      cases rest2 with
      | nil => simp at hm
      | cons a b => simp at hm
    | failed e' =>
      simp at hm
      rw [← hm.1, closeCount_cons]
      have := lsLoop_closeCount script id h [] id h
      rw [hll] at this
      simp_all
    | stalled => simp at hm

/-- C1 amended witness: a one-chunk Get and a successful and a failing Ls. -/
theorem C1_amended_witness :
    closeCount 2 "fh"
      [Req.openReq 2 "/f" 1, Req.readReq 2 "fh" 0 261120, Req.closeReq 2 "fh"] = 1 ∧
    closeCount 3 "dh"
      [Req.openDirReq 3 "/d", Req.readDirReq 3 "dh", Req.closeReq 3 "dh"] = 1 ∧
    closeCount 4 "eh" [Req.openDirReq 4 "/e", Req.readDirReq 4 "eh"] = 0 :=
  ⟨C1_amended.1 2 "/f" "fh" [SMsg.statusResp 1 "", SMsg.statusResp 0 ""]
      [Req.openReq 2 "/f" 1, Req.readReq 2 "fh" 0 261120, Req.closeReq 2 "fh"]
      (Outcome.ok ()) [] (by decide) (by decide),
   C1_amended.2.1 3 "/d" "dh" [SMsg.statusResp 1 "", SMsg.statusResp 0 ""]
      [Req.openDirReq 3 "/d", Req.readDirReq 3 "dh", Req.closeReq 3 "dh"]
      [] (by decide),
   C1_amended.2.2 4 "/e" "eh" [SMsg.statusResp 4 "denied"]
      [Req.openDirReq 4 "/e", Req.readDirReq 4 "eh"] "error: denied" (by decide)⟩

theorem readSeq_shift (id : Nat) (h : String) (n off : Nat) :
    (List.range (n + 1)).map (fun i => Req.readReq id h (off + i * chunkLen) chunkLen)
      = Req.readReq id h off chunkLen ::
        (List.range n).map
          (fun i => Req.readReq id h (off + chunkLen + i * chunkLen) chunkLen) := by
  rw [List.range_succ_eq_map]
  simp only [List.map_cons, List.map_map]
  refine congrArg₂ _ (by simp) ?_
  apply List.map_congr_left
  intro i hi
  simp only [Function.comp_apply]
  congr 1
  rw [Nat.succ_mul]
  ring

theorem getLoop_data (id : Nat) (h m' : String) (ds : List (List Nat))
    (off : Nat) (sink : List Nat) (rest : List SMsg) :
    getLoop id h off sink (ds.map SMsg.dataResp ++ SMsg.statusResp SSH_FX_EOF m' :: rest)
      = ((List.range (ds.length + 1)).map
           (fun i => Req.readReq id h (off + i * chunkLen) chunkLen),
         Outcome.ok (), sink ++ ds.flatten, rest) := by
  induction ds generalizing off sink with
  | nil =>
    simp [getLoop, readReqResult, SSH_FX_EOF, readSeq_shift id h 0 off]
  | cons d t ih =>
    simp only [List.map_cons, List.cons_append, getLoop, readReqResult, List.append_eq]
    rw [ih (off + chunkLen) (sink ++ d)]
    simp only [List.length_cons, readSeq_shift id h (t.length + 1) off]
    simp [List.append_assoc]

theorem getLoop_data_err (id : Nat) (h m' : String) (c : Nat) (ds : List (List Nat))
    (off : Nat) (sink : List Nat) (rest : List SMsg)
    (hc0 : c ≠ SSH_FX_OK) (hc1 : c ≠ SSH_FX_EOF) :
    getLoop id h off sink (ds.map SMsg.dataResp ++ SMsg.statusResp c m' :: rest)
      = ((List.range (ds.length + 1)).map
           (fun i => Req.readReq id h (off + i * chunkLen) chunkLen),
         Outcome.err ("error: " ++ m'), sink ++ ds.flatten, rest) := by
  have hread : readReqResult (SMsg.statusResp c m') = ReadResult.rerr ("error: " ++ m') := by
    simp only [SSH_FX_OK] at hc0
    simp only [SSH_FX_EOF] at hc1
    simp [readReqResult, SSH_FX_OK, SSH_FX_EOF, hc0, hc1]
  induction ds generalizing off sink with
  | nil =>
    simp [getLoop, hread, readSeq_shift id h 0 off]
  | cons d t ih =>
    simp only [List.map_cons, List.cons_append, getLoop, readReqResult, List.append_eq]
    rw [ih (off + chunkLen) (sink ++ d)]
    simp only [List.length_cons, readSeq_shift id h (t.length + 1) off]
    simp [List.append_assoc]

/-- C5: after the handle is obtained, the Get read loop sends ReadRequests at
offsets 0, L, 2L, ... with the length fixed at L = 255 KiB = 261120 bytes,
appends each DataResponse payload to the sink while advancing the offset by
exactly L, stops normally (no error) on a StatusResponse with code EOF, and
fails with the server message on any status that is neither EOF nor OK. -/
theorem C5_get_loop (id : Nat) (path h m' : String) (ds : List (List Nat)) (cm : SMsg) :
    chunkLen = 255 * 1024 ∧
    getModel id path (SMsg.handleResp h ::
        (ds.map SMsg.dataResp ++ SMsg.statusResp SSH_FX_EOF m' :: [cm]))
      = (Req.openReq id path SSH_FXF_READ ::
          (List.range (ds.length + 1)).map
            (fun i => Req.readReq id h (i * chunkLen) chunkLen)
          ++ [Req.closeReq id h],
         Outcome.ok (), ds.flatten) ∧
    (∀ c, c ≠ SSH_FX_OK → c ≠ SSH_FX_EOF →
      getModel id path (SMsg.handleResp h ::
          (ds.map SMsg.dataResp ++ SMsg.statusResp c m' :: [cm]))
        = (Req.openReq id path SSH_FXF_READ ::
            (List.range (ds.length + 1)).map
              (fun i => Req.readReq id h (i * chunkLen) chunkLen)
            ++ [Req.closeReq id h],
           Outcome.err ("error: " ++ m'), ds.flatten)) := by
  refine ⟨rfl, ?_, ?_⟩
  · simp only [getModel, getLoop_data id h m' ds 0 [] [cm]]
    simp
  · intro c hc0 hc1
    simp only [getModel, getLoop_data_err id h m' c ds 0 [] [cm] hc0 hc1]
    simp

/-- C5 witness: a two-chunk read followed by EOF, and a failing status 3. -/
theorem C5_get_loop_witness :
    chunkLen = 255 * 1024 ∧
    getModel 1 "/f" (SMsg.handleResp "h" ::
        ([[7], [8]].map SMsg.dataResp ++ SMsg.statusResp SSH_FX_EOF "" :: [SMsg.statusResp 0 ""]))
      = (Req.openReq 1 "/f" SSH_FXF_READ ::
          (List.range 3).map (fun i => Req.readReq 1 "h" (i * chunkLen) chunkLen)
          ++ [Req.closeReq 1 "h"],
         Outcome.ok (), [7, 8]) ∧
    getModel 1 "/f" (SMsg.handleResp "h" ::
        ([[7], [8]].map SMsg.dataResp ++ SMsg.statusResp 3 "" :: [SMsg.statusResp 0 ""]))
      = (Req.openReq 1 "/f" SSH_FXF_READ ::
          (List.range 3).map (fun i => Req.readReq 1 "h" (i * chunkLen) chunkLen)
          ++ [Req.closeReq 1 "h"],
         Outcome.err ("error: " ++ ""), [7, 8]) :=
  ⟨(C5_get_loop 1 "/f" "h" "" [[7], [8]] (SMsg.statusResp 0 "")).1,
   (C5_get_loop 1 "/f" "h" "" [[7], [8]] (SMsg.statusResp 0 "")).2.1,
   (C5_get_loop 1 "/f" "h" "" [[7], [8]] (SMsg.statusResp 0 "")).2.2 3
     (by decide) (by decide)⟩

theorem lsModel_ok_sorted (id : Nat) (path : String) (script : List SMsg)
    (reqs : List Req) (names : List LsFile)
    (hm : lsModel id path script = (reqs, Outcome.ok names)) :
    ∃ raw, names = sortByFilename raw := by
  cases script with
  | nil => simp [lsModel] at hm
  | cons m rest =>
    cases m with
    | handleResp h =>
      simp only [lsModel] at hm
      rcases hll : lsLoop id h [] rest with ⟨rs, res⟩
      rw [hll] at hm
      cases res with
      | done names' rest2 =>
        cases rest2 with
        | nil => simp at hm
        | cons a b =>
          simp at hm
          exact ⟨names', hm.2.symm⟩
      | failed e => simp at hm
      | stalled => simp at hm
    | statusResp c msg => simp [lsModel] at hm
    | nameResp ns => simp [lsModel] at hm
    | dataResp d => simp [lsModel] at hm
    | otherMsg => simp [lsModel] at hm

theorem charListLe_total (s t : List Char) :
    charListLe s t = true ∨ charListLe t s = true := by
  induction s generalizing t with
  | nil => left; rfl
  | cons a s ih =>
    cases t with
    | nil => right; rfl
    | cons b t =>
      by_cases h1 : a.toNat < b.toNat
      · left; simp [charListLe, h1]
      · by_cases h2 : b.toNat < a.toNat
        · right; simp [charListLe, h2]
        · rcases ih t with h | h
          · left; simp [charListLe, h1, h2, h]
          · right; simp [charListLe, h1, h2, h]

theorem charListLe_trans (s t u : List Char) (h1 : charListLe s t = true)
    (h2 : charListLe t u = true) : charListLe s u = true := by
  induction s generalizing t u with
  | nil => rfl
  | cons a s ih =>
    cases t with
    | nil => simp [charListLe] at h1
    | cons b t =>
      cases u with
      | nil => simp [charListLe] at h2
      | cons c u =>
        simp only [charListLe] at h1 h2 ⊢
        by_cases hab : a.toNat < b.toNat
        · by_cases hbc : b.toNat < c.toNat
          · simp [show a.toNat < c.toNat by omega]
          · by_cases hcb : c.toNat < b.toNat
            · simp [hbc, hcb] at h2
            · simp [show a.toNat < c.toNat by omega]
        · by_cases hba : b.toNat < a.toNat
          · simp [hab, hba] at h1
          · by_cases hbc : b.toNat < c.toNat
            · simp [show a.toNat < c.toNat by omega]
            · by_cases hcb : c.toNat < b.toNat
              · simp [hbc, hcb] at h2
              · simp only [hab, hba, if_neg, if_false] at h1
                simp only [hbc, hcb, if_neg, if_false] at h2
                simp only [show ¬ a.toNat < c.toNat by omega,
                  show ¬ c.toNat < a.toNat by omega, if_neg, if_false]
                exact ih t u (by simpa using h1) (by simpa using h2)

/-- C8: whenever Ls succeeds, the returned entry list is sorted in ascending
filename order (bytewise string order, `leFile`), whatever order the server
delivered the NameResponse entries in. -/
theorem C8_ls_sorted (id : Nat) (path : String) (script : List SMsg)
    (reqs : List Req) (names : List LsFile)
    (hm : lsModel id path script = (reqs, Outcome.ok names)) :
    List.Pairwise leFile names := by
  obtain ⟨raw, rfl⟩ := lsModel_ok_sorted id path script reqs names hm
  have ht : IsTotal LsFile leFile :=
    ⟨fun a b => charListLe_total a.Filename.data b.Filename.data⟩
  have htr : IsTrans LsFile leFile :=
    ⟨fun a b c h1 h2 => charListLe_trans _ _ _ h1 h2⟩
  exact List.sorted_insertionSort leFile raw

/-- C8 witness: the server delivers b before a; Ls returns them sorted. -/
theorem C8_ls_sorted_witness :
    List.Pairwise leFile [(⟨"a", ""⟩ : LsFile), ⟨"b", ""⟩] :=
  C8_ls_sorted 1 "/d"
    [SMsg.handleResp "h", SMsg.nameResp [⟨"b", ""⟩, ⟨"a", ""⟩],
     SMsg.statusResp 1 "", SMsg.otherMsg]
    [Req.openDirReq 1 "/d", Req.readDirReq 1 "h", Req.readDirReq 1 "h",
     Req.closeReq 1 "h"]
    [⟨"a", ""⟩, ⟨"b", ""⟩] (by decide)

/-- C4 counterexample: with a pending slot for id 5, a stream EOF leaves the
reader loop running (EOF is not a termination condition), and the
cancellation signal terminates it with the pending slot still registered and
nothing delivered to it — no SessionClosed/Cancelled release ever happens. -/
theorem C4_counterexample :
    handlerRun [5] [] [REvent.reof] = (HStatus.running, [5], []) ∧
    handlerRun [5] [] [REvent.rcancel] = (HStatus.terminated, [5], []) := by
  decide

theorem handlerRun_terminated_mem (evts : List REvent) :
    ∀ p d, (handlerRun p d evts).1 = HStatus.terminated → REvent.rcancel ∈ evts := by
  induction evts with
  | nil =>
    intro p d hterm
    simp [handlerRun] at hterm
  | cons e rest ih =>
    intro p d hterm
    cases e with
    | rcancel => exact List.mem_cons_self _ _
    | reof => exact List.mem_cons_of_mem _ (ih p d (by simpa [handlerRun] using hterm))
    | rmsg oid m =>
      cases oid with
      | some i =>
        exact List.mem_cons_of_mem _ (ih _ _ (by simpa [handlerRun] using hterm))
      | none =>
        by_cases h0 : 0 ∈ p
        · exact List.mem_cons_of_mem _ (ih _ _ (by simpa [handlerRun, h0] using hterm))
        · simp [handlerRun, h0] at hterm
    | rerr =>
      by_cases h0 : 0 ∈ p
      · exact List.mem_cons_of_mem _ (ih _ _ (by simpa [handlerRun, h0] using hterm))
      · simp [handlerRun, h0] at hterm

/-- C4 amended: the reader loop returns only when the cancellation signal
fires — a stream EOF makes it continue looping, and termination can only be
reached through a cancellation event — and the terminating step leaves the
pending slots exactly as they were, delivering nothing: no still-pending slot
is released with a SessionClosed/Cancelled error, so a blocked caller stays
blocked. -/
theorem C4_amended :
    (∀ p d rest, handlerRun p d (REvent.rcancel :: rest) = (HStatus.terminated, p, d)) ∧
    (∀ p d rest, handlerRun p d (REvent.reof :: rest) = handlerRun p d rest) ∧
    (∀ evts p d, (handlerRun p d evts).1 = HStatus.terminated → REvent.rcancel ∈ evts) :=
  ⟨fun p d rest => rfl, fun p d rest => rfl,
   fun evts p d h => handlerRun_terminated_mem evts p d h⟩

/-- C4 amended witness: cancelling with slot 3 pending terminates the loop
with the slot untouched, and a terminating run contains a cancel event. -/
theorem C4_amended_witness :
    handlerRun [3] [] [REvent.rcancel] = (HStatus.terminated, [3], []) ∧
    REvent.rcancel ∈ [REvent.reof, REvent.rcancel] :=
  ⟨C4_amended.1 [3] [] [],
   C4_amended.2.2 [REvent.reof, REvent.rcancel] [] [] (by decide)⟩

end Usftp
